import Mathlib

/-!
Verification of the flf incremental search console (sirasagi62/flf).

The definitions below are a shallow embedding of the TypeScript source:
`src/dircore.ts` (`FlfDirCore`), `src/buffercore.ts` (`FlfBufferCore`),
`src/types.ts`, and the `FluentFinderUI` console in the unnamed UI module.
JavaScript strings are modelled as Lean `String` (sequences of characters),
JavaScript numbers used as indices/rows as `Nat`/`Int`, and the backend
similarity distance as `Rat`.  Asynchronous completions are modelled by
passing the backend response explicitly to the keypress handler and by
folding response-admission steps over the UI state.
-/

/-- A position in a source file, as produced by the external `code-chopper`
parser (`Point`): a row and a column. -/
structure SrcPoint where
  row : Nat
  column : Nat
deriving DecidableEq, Repr

/-- `ListItem` from `src/types.ts` / the UI module: the record the console
keeps for every displayed result.  `cursorInfo.start`/`cursorInfo.end` are
split into two fields because `end` is a Lean keyword. -/
structure ListItem where
  filePath : String
  entity : String
  content : String
  language : String
  cursorStart : SrcPoint
  cursorEnd : SrcPoint
deriving DecidableEq, Repr

/-- `SearchResult` from `src/types.ts`: one element of the list returned by
`FlfDirCore.search` / `FlfBufferCore.search`. -/
structure SearchResult where
  rank : Nat
  file : String
  fileName : String
  contentSnippet : String
  entity : String
  parentInfo : String
  score : String
  language : String
  cursorStart : SrcPoint
  cursorEnd : SrcPoint
deriving DecidableEq, Repr

/-- One row returned by the external vector database (`db.searchSimilar`):
the stored chunk metadata plus the similarity distance.  The field set is
the one the `search` methods read off the row. -/
structure DBRow where
  filepath : String
  fileName : String
  content : String
  entity : String
  parentInfo : String
  distance : Rat
  language : String
  cursorStart : SrcPoint
  cursorEnd : SrcPoint
deriving DecidableEq, Repr

/-- `OutputType` from `src/types.ts`: the closed enumeration of target
editors. -/
inductive OutputType where
  | nvim
  | vim
  | emacs
  | cmd
deriving DecidableEq, Repr

/-- Decimal digits of `n`, padded on the left with zeros to width 4; used by
the model of `Number.prototype.toFixed(4)`. -/
def pad4 (n : Nat) : String :=
  let s := toString n
  String.mk (List.replicate (4 - s.length) '0') ++ s

/-- ECMAScript `Number.prototype.toFixed(4)` on a nonnegative value: the
integer `n` closest to `x * 10^4` (ties towards the larger `n`), rendered
with exactly four fractional digits. -/
def toFixed4Nonneg (x : Rat) : String :=
  let n : Nat := (Rat.floor (x * 10000 + 1 / 2)).toNat
  toString (n / 10000) ++ "." ++ pad4 (n % 10000)

/-- ECMAScript `Number.prototype.toFixed(4)`: negative values are rendered
by prefixing `-` to the rendering of the negation. -/
def toFixed4 (x : Rat) : String :=
  if x < 0 then "-" ++ toFixed4Nonneg (-x) else toFixed4Nonneg x

/-- JavaScript `s.substring(0, n)`: the first `n` characters of `s` (all of
`s` when it is shorter). -/
def jsSubstringTo (s : String) (n : Nat) : String :=
  String.mk (s.data.take n)

/-- The body of the `results.map((result, index) => ...)` callback shared by
`FlfDirCore.search` and `FlfBufferCore.search`: builds one `SearchResult`
from the db row at position `index`. -/
def mkSearchResult (isJsonOutput : Bool) (index : Nat) (result : DBRow) : SearchResult :=
  { rank := index + 1
    file := result.filepath
    fileName := result.fileName
    contentSnippet :=
      if isJsonOutput then result.content else jsSubstringTo result.content 100 ++ "..."
    entity := result.entity
    parentInfo := result.parentInfo
    score := toFixed4 result.distance
    language := result.language
    cursorStart := result.cursorStart
    cursorEnd := result.cursorEnd }

/-- `Array.prototype.map` with its index argument, specialised to
`mkSearchResult`: the recursion carries the current index. -/
def searchMapAux (isJsonOutput : Bool) (index : Nat) : List DBRow → List SearchResult
  | [] => []
  | result :: rest =>
      mkSearchResult isJsonOutput index result :: searchMapAux isJsonOutput (index + 1) rest

/-- `FlfDirCore.search` / `FlfBufferCore.search` after the rows have come
back from `db.searchSimilar`: `results.map((result, index) => ({rank:
index + 1, ...}))`. -/
def searchMap (isJsonOutput : Bool) (results : List DBRow) : List SearchResult :=
  searchMapAux isJsonOutput 0 results

/-- Hexadecimal digit character, lower case. -/
def hexDigit (n : Nat) : Char :=
  if n < 10 then Char.ofNat (48 + n) else Char.ofNat (87 + n)

/-- Two lower-case hexadecimal digits of a byte. -/
def hexByte (n : Nat) : String :=
  String.mk [hexDigit (n / 16), hexDigit (n % 16)]

/-- `JSON.stringify` escaping of one character inside a string literal. -/
def jsonEscapeChar (c : Char) : String :=
  if c = '"' then "\\\""
  else if c = '\\' then "\\\\"
  else if c = '\n' then "\\n"
  else if c = '\r' then "\\r"
  else if c = '\t' then "\\t"
  else if c = '\x08' then "\\b"
  else if c = '\x0c' then "\\f"
  else if c.toNat < 32 then "\\u00" ++ hexByte c.toNat
  else String.singleton c

/-- `JSON.stringify` of a string value. -/
def jsonQuote (s : String) : String :=
  "\"" ++ String.join (s.data.map jsonEscapeChar) ++ "\""

/-- `JSON.stringify` of a `code-chopper` `Point` (`row` then `column`). -/
def jsonPoint (p : SrcPoint) : String :=
  "\x7b\"row\":" ++ toString p.row ++ ",\"column\":" ++ toString p.column ++ "\x7d"

/-- `JSON.stringify(result)` for a `ListItem`, with the keys in the
insertion order of the record built by the console (`filePath`, `entity`,
`content`, `language`, `cursorInfo`). -/
def jsonStringifyListItem (it : ListItem) : String :=
  "\x7b\"filePath\":" ++ jsonQuote it.filePath ++
  ",\"entity\":" ++ jsonQuote it.entity ++
  ",\"content\":" ++ jsonQuote it.content ++
  ",\"language\":" ++ jsonQuote it.language ++
  ",\"cursorInfo\":\x7b\"start\":" ++ jsonPoint it.cursorStart ++
  ",\"end\":" ++ jsonPoint it.cursorEnd ++ "\x7d\x7d"

/-- `FlfDirCore.formatResult`: `JSON.stringify(result)`, overwritten with
the `tabf` jump command for `nvim`/`vim`. -/
def formatResultDir (result : ListItem) (outputType : OutputType) : String :=
  let query := jsonStringifyListItem result
  if outputType = OutputType.nvim ∨ outputType = OutputType.vim then
    "<cmd>tabf +" ++ toString (result.cursorStart.row + 1) ++ " " ++ result.filePath ++ "<CR>"
  else query

/-- `FlfBufferCore.formatResult`: `JSON.stringify(result)`, overwritten with
the `FlfJumpToBufWithLine` call for `nvim`/`vim`. -/
def formatResultBuf (result : ListItem) (outputType : OutputType) : String :=
  let query := jsonStringifyListItem result
  if outputType = OutputType.nvim ∨ outputType = OutputType.vim then
    "<cmd>call FlfJumpToBufWithLine(\"" ++ result.filePath ++ "\",\"" ++
      toString (result.cursorStart.row + 1) ++ "\")<CR>"
  else query

/-- The string printed by `FluentFinderUI.showResult`: same template as
`FlfDirCore.formatResult`. -/
def showResultString (result : ListItem) (outputType : OutputType) : String :=
  let query := jsonStringifyListItem result
  if outputType = OutputType.nvim ∨ outputType = OutputType.vim then
    "<cmd>tabf +" ++ toString (result.cursorStart.row + 1) ++ " " ++ result.filePath ++ "<CR>"
  else query

/-- Modelled from the spec: the scrollable list widget (`blessed.list`) is
an external terminal primitive, not part of the repository; the ResultPane
boundary in the spec says selecting clamps the cursor within
`[0, length-1]` and that the cursor is `0` when the list is empty.  The
widget stores the displayed title strings and the selection index. -/
structure BlessedList where
  items : List String
  selected : Nat
deriving DecidableEq, Repr

/-- Modelled from the spec: `list.select(index)` clamps `index` into
`[0, items.length - 1]` and resets to `0` on an empty list. -/
def BlessedList.select (l : BlessedList) (index : Int) : BlessedList :=
  if l.items.length = 0 then { l with selected := 0 }
  else { l with selected := (min (max index 0) ((l.items.length : Int) - 1)).toNat }

/-- Modelled from the spec: `list.up(offset)` moves the selection up by
`offset`, clamped. -/
def BlessedList.up (l : BlessedList) (offset : Nat) : BlessedList :=
  l.select ((l.selected : Int) - offset)

/-- Modelled from the spec: `list.down(offset)` moves the selection down by
`offset`, clamped. -/
def BlessedList.down (l : BlessedList) (offset : Nat) : BlessedList :=
  l.select ((l.selected : Int) + offset)

/-- Modelled from the spec: `list.setItems(items)` replaces the stored
titles and re-clamps the current selection. -/
def BlessedList.setItems (l : BlessedList) (items : List String) : BlessedList :=
  BlessedList.select { l with items := items } (l.selected : Int)

/-- Modelled from the spec: `list.clearItems()` is `setItems([])`. -/
def BlessedList.clearItems (l : BlessedList) : BlessedList :=
  l.setItems []

/-- The state of the `FluentFinderUI` console: the query textbox value
(owned by the external textbox widget), the `currentResult` field, the
result list widget, the preview pane content/language, and the configured
target editor (`this.options.editor`). -/
structure UIState where
  inputValue : String
  currentResult : List ListItem
  list : BlessedList
  previewContent : String
  previewLanguage : String
  editor : OutputType
deriving DecidableEq, Repr

/-- `FluentFinderUI.convertListItemToListTitle`. -/
def convertListItemToListTitle (item : ListItem) : String :=
  item.filePath ++ "#" ++ item.entity

/-- `FluentFinderUI.updateList(items)`: store the items, replace the
titles of the list widget, reset the cursor to `0` when the list is
nonempty, and
show the first item (or the empty string) in the preview. -/
def updateList (s : UIState) (items : List ListItem) : UIState :=
  let l1 := s.list.clearItems
  let l2 := l1.setItems (items.map convertListItemToListTitle)
  let l3 := if items.length > 0 then l2.select 0 else l2
  let item := items.head?
  { s with
    currentResult := items
    list := l3
    previewContent := (item.map fun i => i.content).getD ""
    previewLanguage := (item.map fun i => i.language).getD "" }

/-- `FluentFinderUI.updatePreview`: show the item at the list cursor in the
preview; throws `selectedItem is undefined` when there is none. -/
def updatePreview (s : UIState) : Except String UIState :=
  let idx := s.list.selected
  match s.currentResult[idx]? with
  | none => Except.error "selectedItem is undefined"
  | some selectedItem =>
      Except.ok { s with
        previewContent := selectedItem.content
        previewLanguage := selectedItem.language }

/-- Observable side effects of the console on the terminal session and on
standard output.  Repaints (`screen.render`) are internal to the external
widget library and are not modelled. -/
inductive Effect where
  | destroyScreen
  | emitStdout (s : String)
  | setRawMode (b : Bool)
  | pauseIn
  | destroyIn
  | endOut
  | exitProcess (code : Nat)
deriving DecidableEq, Repr

/-- `FluentFinderUI.destroyTTY`: `setRawMode(false)`, `pause()`,
`destroy()` on the tty input and `end()` on the tty output. -/
def destroyTTYEffects : List Effect :=
  [Effect.setRawMode false, Effect.pauseIn, Effect.destroyIn, Effect.endOut]

/-- A keypress as delivered by the textbox widget: ascii keys carry a
`name` and modifier flags, unicode keys carry `name: null` and the typed
text in `full`. -/
structure KeyInput where
  name : Option String
  full : String
  ctrl : Bool
  shift : Bool
  meta : Bool
deriving DecidableEq, Repr

/-- JavaScript truthiness of `key.name` (`null` and the empty string are
falsy). -/
def nameIsTruthy : Option String → Bool
  | some n => n ≠ ""
  | none => false

/-- The `.map(r => ({filePath: r.file, ...}))` projection applied to every
admitted search response in `handleQueryChange` (and at startup). -/
def searchResultToListItem (r : SearchResult) : ListItem :=
  { filePath := r.file
    entity := r.entity
    content := r.contentSnippet
    language := r.language
    cursorStart := r.cursorStart
    cursorEnd := r.cursorEnd }

/-- The continuation of `handleQueryChange` after `await this.core.search`
resolves: sort the response by rank, project it to `ListItem`s and replace
the displayed list. -/
def admitResponse (s : UIState) (res : List SearchResult) : UIState :=
  updateList s
    ((res.mergeSort fun a b => a.rank ≤ b.rank).map searchResultToListItem)

/-- The `up`/`down` branch of `handleQueryChange`: move the list cursor,
then update the preview; an error thrown by `updatePreview` escapes the
handler while the cursor move persists. -/
def navStep (s : UIState) (l : BlessedList) : UIState × List Effect × Option String :=
  let s1 := { s with list := l }
  match updatePreview s1 with
  | Except.ok s2 => (s2, [], none)
  | Except.error e => (s1, [], some e)

/-- The tail of `handleQueryChange`: dispatch the search for `query` and,
when it resolves, admit its response; a rejected search escapes the
handler. -/
def afterKey (s : UIState) (query : String) (effects : List Effect)
    (resp : Except String (List SearchResult)) :
    UIState × List Effect × Option String :=
  match resp with
  | Except.error e => (s, effects, some e)
  | Except.ok res => (admitResponse s res, effects, none)

/-- `FluentFinderUI.handleQueryChange(key)`.  The backend response to the
dispatched search is passed in explicitly (`resp`); the third component of
the result is the error, if any, escaping the (uncaught) async handler. -/
def handleQueryChange (s : UIState) (key : KeyInput)
    (resp : Except String (List SearchResult)) :
    UIState × List Effect × Option String :=
  let query := s.inputValue.trim
  if nameIsTruthy key.name then
    let n := key.name.getD ""
    if n = "backspace" then
      afterKey s (query.dropRight 1) [] resp
    else if n = "enter" then
      let listIdx := s.list.selected
      match s.currentResult[listIdx]? with
      | some selectedItem =>
          afterKey s query
            ([Effect.destroyScreen,
              Effect.emitStdout (showResultString selectedItem s.editor)] ++
              destroyTTYEffects) resp
      | none => afterKey s query [] resp
    else if n = "up" then
      navStep s (s.list.up 1)
    else if n = "down" then
      navStep s (s.list.down 1)
    else if !(key.ctrl || key.meta || key.shift) && n.length = 1 then
      afterKey s (query ++ n) [] resp
    else if key.ctrl && n = "c" then
      afterKey s query (Effect.destroyScreen :: destroyTTYEffects) resp
    else
      afterKey s query [] resp
  else
    afterKey s (query ++ key.full) [] resp

/-- The quit handler (escape / q / C-c) installed on the screen by
`FluentFinderUI.bindKeys`: destroy the screen, then tear down the tty; it
does not call `process.exit`. -/
def quitKeyHandlerEffects : List Effect :=
  Effect.destroyScreen :: destroyTTYEffects

/-- The process exit code resulting from an effect trace: the code of the
last explicit `process.exit`, or the default `0` when the event loop
drains without one. -/
def processExitCode (tr : List Effect) : Nat :=
  (tr.foldl (fun acc e =>
      match e with
      | Effect.exitProcess n => some n
      | _ => acc) none).getD 0

/-- `true` iff the trace writes nothing to standard output. -/
def emitsNothing (tr : List Effect) : Bool :=
  tr.all fun e =>
    match e with
    | Effect.emitStdout _ => false
    | _ => true

/-- `true` iff every write to standard output in the trace happens after
the terminal output stream has been released (`endOut`). -/
def emitsOnlyAfterRelease (tr : List Effect) : Bool :=
  (tr.foldl (fun acc e =>
      match e with
      | Effect.endOut => (true, acc.2)
      | Effect.emitStdout _ => (acc.1, acc.2 && acc.1)
      | _ => acc) (false, true)).2

/-- Processing the asynchronous completions of a set of dispatched search
requests, in completion order: each completion runs the post-`await`
continuation, i.e. `admitResponse`. -/
def runCompletions (s : UIState) (responses : List (List SearchResult)) : UIState :=
  responses.foldl admitResponse s

/-- `true` iff the key is a pure navigation key (`up`/`down`), which the
handler serves without dispatching a search. -/
def isNavKey (k : KeyInput) : Bool :=
  nameIsTruthy k.name && (k.name.getD "" = "up" || k.name.getD "" = "down")

/-- A sequence of keypresses processed by `handleQueryChange`, threading
the UI state (navigation keys never inspect the backend, so a fixed empty
response is supplied). -/
def navFold (s : UIState) (keys : List KeyInput) : UIState :=
  keys.foldl (fun st k => (handleQueryChange st k (Except.ok [])).1) s

/-- A concrete source position used by the concrete test states. -/
def samplePoint : SrcPoint := { row := 9, column := 2 }

/-- A concrete displayed result item. -/
def sampleItem : ListItem :=
  { filePath := "a.ts", entity := "f", content := "body", language := "ts"
    cursorStart := samplePoint, cursorEnd := samplePoint }

/-- The console state right after construction: empty query, empty result
list, cursor `0`. -/
def sampleEmptyState : UIState :=
  { inputValue := "", currentResult := [], list := { items := [], selected := 0 }
    previewContent := "", previewLanguage := "", editor := OutputType.nvim }

/-- A console state displaying one result, cursor on it. -/
def sampleState : UIState :=
  { inputValue := "", currentResult := [sampleItem]
    list := { items := ["a.ts#f"], selected := 0 }
    previewContent := "body", previewLanguage := "ts", editor := OutputType.nvim }

/-- The `down` arrow keypress. -/
def downKey : KeyInput :=
  { name := some "down", full := "down", ctrl := false, shift := false, meta := false }

/-- The `enter` keypress. -/
def enterKey : KeyInput :=
  { name := some "enter", full := "enter", ctrl := false, shift := false, meta := false }

/-- The `Ctrl-C` keypress as seen by the textbox keypress handler. -/
def ctrlCKey : KeyInput :=
  { name := some "c", full := "C-c", ctrl := true, shift := false, meta := false }

/-- A printable-character keypress. -/
def charAKey : KeyInput :=
  { name := some "a", full := "a", ctrl := false, shift := false, meta := false }

/-- A concrete backend response: one result. -/
def respOne : List SearchResult :=
  [{ rank := 1, file := "one.ts", fileName := "one.ts", contentSnippet := "one"
     entity := "g", parentInfo := "", score := "0.1000", language := "ts"
     cursorStart := samplePoint, cursorEnd := samplePoint }]

/-- A concrete backend response: empty. -/
def respTwo : List SearchResult := []

/-- A concrete database row. -/
def sampleRow : DBRow :=
  { filepath := "one.ts", fileName := "one.ts", content := "content text"
    entity := "g", parentInfo := "", distance := 1 / 8, language := "ts"
    cursorStart := samplePoint, cursorEnd := samplePoint }

theorem BlessedList.items_select (l : BlessedList) (i : Int) :
    (l.select i).items = l.items := by
  unfold BlessedList.select
  split <;> rfl

theorem BlessedList.selected_select_lt (l : BlessedList) (i : Int) :
    (l.select i).selected < max l.items.length 1 := by
  unfold BlessedList.select
  split
  · show 0 < max l.items.length 1
    omega
  · show (min (max i 0) ((l.items.length : Int) - 1)).toNat < max l.items.length 1
    omega

theorem updateList_selected (s : UIState) (items : List ListItem) :
    (updateList s items).list.selected = 0 := by
  unfold updateList BlessedList.clearItems BlessedList.setItems BlessedList.select
  cases items <;> simp

theorem updateList_currentResult (s : UIState) (items : List ListItem) :
    (updateList s items).currentResult = items := rfl

theorem updateList_items (s : UIState) (items : List ListItem) :
    (updateList s items).list.items = items.map convertListItemToListTitle := by
  unfold updateList BlessedList.clearItems BlessedList.setItems BlessedList.select
  cases items <;> simp

theorem navStep_list (st : UIState) (l : BlessedList) :
    (navStep st l).1.list = l ∧ (navStep st l).1.currentResult = st.currentResult := by
  unfold navStep updatePreview
  cases h : st.currentResult[l.selected]? <;> simp [h]

theorem navKey_preserves (st : UIState) (k : KeyInput)
    (r : Except String (List SearchResult)) (hk : isNavKey k = true) :
    (handleQueryChange st k r).1.currentResult = st.currentResult ∧
    (handleQueryChange st k r).1.list.items = st.list.items ∧
    (handleQueryChange st k r).1.list.selected < max st.list.items.length 1 := by
  have h1 : nameIsTruthy k.name = true := by
    unfold isNavKey at hk
    exact (Bool.and_eq_true _ _ |>.mp hk).1
  have h2 : k.name.getD "" = "up" ∨ k.name.getD "" = "down" := by
    unfold isNavKey at hk
    have := (Bool.and_eq_true _ _ |>.mp hk).2
    rcases Bool.or_eq_true _ _ |>.mp this with h | h
    · exact Or.inl (by simpa using h)
    · exact Or.inr (by simpa using h)
  unfold handleQueryChange
  rcases h2 with h2 | h2 <;> simp only [h1, if_true, h2, String.reduceEq, reduceIte]
  · have hl := navStep_list st (st.list.up 1)
    refine ⟨hl.2, ?_, ?_⟩
    · rw [hl.1]
      exact BlessedList.items_select st.list _
    · rw [hl.1]
      have := BlessedList.selected_select_lt st.list ((st.list.selected : Int) - 1)
      simpa [BlessedList.up] using this
  · have hl := navStep_list st (st.list.down 1)
    refine ⟨hl.2, ?_, ?_⟩
    · rw [hl.1]
      exact BlessedList.items_select st.list _
    · rw [hl.1]
      have := BlessedList.selected_select_lt st.list ((st.list.selected : Int) + 1)
      simpa [BlessedList.down] using this

theorem navFold_preserves (keys : List KeyInput) :
    ∀ s : UIState, (∀ k ∈ keys, isNavKey k = true) →
      s.list.items.length = s.currentResult.length →
      s.list.selected < max s.currentResult.length 1 →
      (navFold s keys).currentResult = s.currentResult ∧
      (navFold s keys).list.items = s.list.items ∧
      (navFold s keys).list.selected < max s.currentResult.length 1 := by
  induction keys with
  | nil => intro s _ _ hsel; exact ⟨rfl, rfl, hsel⟩
  | cons k rest ih =>
      intro s hkeys hlen hsel
      have hk : isNavKey k = true := hkeys k (List.mem_cons_self k rest)
      have hstep := navKey_preserves s k (Except.ok []) hk
      have hrest := ih ((handleQueryChange s k (Except.ok [])).1)
        (fun key hmem => hkeys key (List.mem_cons_of_mem k hmem))
        (by rw [hstep.2.1, hstep.1]; exact hlen)
        (by rw [hstep.1]; rw [hlen] at hstep; exact hstep.2.2)
      have hunfold : navFold s (k :: rest) =
          navFold ((handleQueryChange s k (Except.ok [])).1) rest := rfl
      rw [hunfold]
      refine ⟨?_, ?_, ?_⟩
      · rw [hrest.1, hstep.1]
      · rw [hrest.2.1, hstep.2.1]
      · rw [hstep.1] at hrest
        exact hrest.2.2

theorem digitChar_isDigit : ∀ m, m < 10 → (Nat.digitChar m).isDigit = true := by decide

theorem toDigitsCore_digits (f : Nat) :
    ∀ (n : Nat) (acc : List Char), (∀ c ∈ acc, c.isDigit = true) →
      ∀ c ∈ Nat.toDigitsCore 10 f n acc, c.isDigit = true := by
  induction f with
  | zero => intro n acc hacc; simpa [Nat.toDigitsCore] using hacc
  | succ f ih =>
      intro n acc hacc c hc
      simp only [Nat.toDigitsCore] at hc
      by_cases h : n / 10 = 0
      · rw [if_pos h] at hc
        rcases List.mem_cons.mp hc with hc | hc
        · subst hc; exact digitChar_isDigit _ (Nat.mod_lt _ (by norm_num))
        · exact hacc c hc
      · rw [if_neg h] at hc
        refine ih (n / 10) (Nat.digitChar (n % 10) :: acc) ?_ c hc
        intro d hd
        rcases List.mem_cons.mp hd with hd | hd
        · subst hd; exact digitChar_isDigit _ (Nat.mod_lt _ (by norm_num))
        · exact hacc d hd

theorem repr_chars_isDigit (n : Nat) : ∀ c ∈ (Nat.repr n).data, c.isDigit = true := by
  intro c hc
  have hdata : (Nat.repr n).data = Nat.toDigitsCore 10 (n + 1) n [] := rfl
  rw [hdata] at hc
  exact toDigitsCore_digits (n + 1) n [] (by simp) c hc

theorem searchMapAux_length (j : Bool) (rows : List DBRow) :
    ∀ k, (searchMapAux j k rows).length = rows.length := by
  induction rows with
  | nil => intro k; rfl
  | cons r rest ih => intro k; simp [searchMapAux, ih]

theorem searchMapAux_getElem? (j : Bool) (rows : List DBRow) :
    ∀ k i, (searchMapAux j k rows)[i]? = rows[i]?.map (mkSearchResult j (k + i)) := by
  induction rows with
  | nil => intro k i; simp [searchMapAux]
  | cons r rest ih =>
      intro k i
      cases i with
      | zero => simp [searchMapAux]
      | succ i =>
          have harith : k + 1 + i = k + (i + 1) := by omega
          simp only [searchMapAux, List.getElem?_cons_succ, ih (k + 1) i, harith]

theorem searchMapAux_rank_ge (j : Bool) (rows : List DBRow) :
    ∀ k, ∀ r ∈ searchMapAux j k rows, k + 1 ≤ r.rank := by
  induction rows with
  | nil => intro k r hr; simp [searchMapAux] at hr
  | cons row rest ih =>
      intro k r hr
      rcases List.mem_cons.mp hr with hr | hr
      · subst hr; exact Nat.le_refl _
      · exact Nat.le_of_succ_le (ih (k + 1) r hr)

theorem searchMapAux_pairwise (j : Bool) (rows : List DBRow) :
    ∀ k, (searchMapAux j k rows).Pairwise fun a b => a.rank ≤ b.rank := by
  induction rows with
  | nil => intro k; simp [searchMapAux]
  | cons row rest ih =>
      intro k
      refine List.Pairwise.cons ?_ (ih (k + 1))
      intro b hb
      have := searchMapAux_rank_ge j rest (k + 1) b hb
      simpa [mkSearchResult] using Nat.le_of_succ_le this

theorem searchMap_mergeSort_eq (j : Bool) (rows : List DBRow) :
    ((searchMap j rows).mergeSort fun a b => a.rank ≤ b.rank) = searchMap j rows := by
  apply List.mergeSort_of_sorted
  have := searchMapAux_pairwise j rows 0
  exact this.imp fun h => by simpa using h

theorem data_infix_middle (a b c : String) :
    b.data <:+: (a ++ b ++ c).data := by
  refine ⟨a.data, c.data, ?_⟩
  simp [String.data_append]

/-- C1 (amended): the console has no sequence-number gate.  For every
nonempty sequence of asynchronous search completions, the result list
displayed after the final render equals the response that completed last
in completion order — not the response of the request with the greatest
sequence number — because every completion unconditionally replaces the
displayed list. -/
theorem c1_last_completion_displayed (s : UIState) (first : List SearchResult)
    (rest : List (List SearchResult)) :
    (runCompletions s (first :: rest)).currentResult =
      ((rest.getLastD first).mergeSort fun a b => a.rank ≤ b.rank).map
        searchResultToListItem := by
  induction rest generalizing s first with
  | nil => rfl
  | cons b rest2 ih =>
      have hstep : runCompletions s (first :: b :: rest2) =
          runCompletions (admitResponse s first) (b :: rest2) := rfl
      rw [hstep, ih (admitResponse s first) b, List.getLastD_cons]

/-- C1 counterexample: requests with sequence numbers 1 and 2 are in
flight; the response of request 2 (empty) completes first and the response
of request 1 completes second.  The rendered list is the stale response of
request 1, not the response of request 2 — the request with the greatest
sequence number among those completed — so a lower-sequence response is
displayed after a higher one was. -/
theorem c1_stale_response_displayed :
    (runCompletions sampleEmptyState [respTwo, respOne]).currentResult =
      (respOne.mergeSort fun a b => a.rank ≤ b.rank).map searchResultToListItem ∧
    (runCompletions sampleEmptyState [respTwo, respOne]).currentResult ≠
      (respTwo.mergeSort fun a b => a.rank ≤ b.rank).map searchResultToListItem := by
  refine ⟨rfl, ?_⟩
  have e1 : (respOne.mergeSort fun a b => a.rank ≤ b.rank) = respOne := by
    simp [respOne, List.mergeSort_singleton]
  have e2 : (respTwo.mergeSort fun a b => a.rank ≤ b.rank) = ([] : List SearchResult) := by
    simp [respTwo, List.mergeSort_nil]
  rw [show (runCompletions sampleEmptyState [respTwo, respOne]).currentResult =
      (respOne.mergeSort fun a b => a.rank ≤ b.rank).map searchResultToListItem from rfl,
    e1, e2]
  simp [respOne]

/-- C2 (amended): for every displayed result list of length `L ≥ 0` and
every sequence of up/down navigation events, the displayed results are
unchanged and the selection cursor stays within `[0, L-1]` (it is `0` when
`L = 0`), and when `L = 0` the current selection is the empty option.  The
`navigation does not fail` part of the original claim is false: see the
counterexample below. -/
theorem c2_cursor_clamping (s : UIState) (keys : List KeyInput)
    (hkeys : ∀ k ∈ keys, isNavKey k = true)
    (hlen : s.list.items.length = s.currentResult.length)
    (hsel : s.list.selected < max s.currentResult.length 1) :
    (navFold s keys).currentResult = s.currentResult ∧
    (navFold s keys).list.selected < max s.currentResult.length 1 ∧
    (s.currentResult.length = 0 →
      (navFold s keys).currentResult[(navFold s keys).list.selected]? = none) := by
  have h := navFold_preserves keys s hkeys hlen hsel
  refine ⟨h.1, h.2.2, ?_⟩
  intro h0
  rw [h.1]
  have hnil : s.currentResult = [] := List.length_eq_zero.mp h0
  simp [hnil]

theorem c2_cursor_clamping_witness :
    ((∀ k ∈ [downKey], isNavKey k = true) ∧
      sampleState.list.items.length = sampleState.currentResult.length ∧
      sampleState.list.selected < max sampleState.currentResult.length 1) ∧
    (navFold sampleState [downKey]).list.selected <
      max sampleState.currentResult.length 1 :=
  ⟨⟨by decide, by decide, by decide⟩,
    (c2_cursor_clamping sampleState [downKey] (by decide) (by decide) (by decide)).2.1⟩

/-- C2 counterexample: with an empty result list a `down` keypress moves
the (clamped) cursor and then `updatePreview` throws
`selectedItem is undefined`, which escapes the handler: navigation on an
empty list does fail. -/
theorem c2_empty_nav_error :
    (handleQueryChange sampleEmptyState downKey (Except.ok [])).2.2 =
      some "selectedItem is undefined" := by
  decide

/-- C3: after every `updateList` invocation, with any item sequence, the
selection cursor equals `0` regardless of its prior value, the stored
result sequence is exactly the given one, and each displayed title is the
file path, then `#`, then the entity name. -/
theorem c3_replace_resets_cursor (s : UIState) (items : List ListItem) :
    (updateList s items).list.selected = 0 ∧
    (updateList s items).currentResult = items ∧
    (updateList s items).list.items =
      items.map fun i => i.filePath ++ "#" ++ i.entity :=
  ⟨updateList_selected s items, updateList_currentResult s items, by
    rw [updateList_items]; rfl⟩

/-- C4 (amended): on enter with a selected item the console first destroys
the screen, then emits the formatted command to standard output, and only
after that releases the terminal device (`setRawMode(false)`, `pause`,
`destroy`, `end`) — the emission precedes the terminal release, not the
other way round; when no selection is captured nothing is emitted. -/
theorem c4_submission_effect_order (s : UIState) (key : KeyInput)
    (resp : Except String (List SearchResult)) (hname : key.name = some "enter") :
    (∀ item, s.currentResult[s.list.selected]? = some item →
      (handleQueryChange s key resp).2.1 =
        [Effect.destroyScreen, Effect.emitStdout (showResultString item s.editor),
         Effect.setRawMode false, Effect.pauseIn, Effect.destroyIn, Effect.endOut]) ∧
    (s.currentResult[s.list.selected]? = none →
      emitsNothing (handleQueryChange s key resp).2.1 = true) := by
  unfold handleQueryChange
  simp only [hname, nameIsTruthy, Option.getD_some, String.reduceEq, reduceIte,
    bne_iff_ne, ne_eq, decide_not]
  constructor
  · intro item hitem
    rw [hitem]
    cases resp <;> simp [afterKey, destroyTTYEffects]
  · intro hnone
    rw [hnone]
    cases resp <;> simp [afterKey, emitsNothing]

theorem c4_submission_effect_order_witness :
    (enterKey.name = some "enter") ∧
    (handleQueryChange sampleState enterKey (Except.ok [])).2.1 =
      [Effect.destroyScreen, Effect.emitStdout (showResultString sampleItem sampleState.editor),
       Effect.setRawMode false, Effect.pauseIn, Effect.destroyIn, Effect.endOut] :=
  ⟨rfl, (c4_submission_effect_order sampleState enterKey (Except.ok []) rfl).1
    sampleItem (by decide)⟩

/-- C4 counterexample: at a concrete submission the handler does write to
standard output, and the write is not after the terminal release — it
happens before the tty teardown effects. -/
theorem c4_emit_before_release :
    emitsNothing (handleQueryChange sampleState enterKey (Except.ok [])).2.1 = false ∧
    emitsOnlyAfterRelease (handleQueryChange sampleState enterKey (Except.ok [])).2.1 =
      false := by
  decide

/-- C5: formatting a selected item for target editor `nvim` or `vim`
produces the jump command embedding the 1-based starting line (start row
plus one) and the file path of the item — the directory core uses the
`tabf` template, the buffer core the `FlfJumpToBufWithLine` template, and
the interactive console prints the same string as the directory core; the
command stays on a single line whenever the file path has no newline.  For
`cmd` and for the unimplemented `emacs`, all three produce the JSON
serialization of the item record instead. -/
theorem c5_editor_command_format (item : ListItem) :
    (∀ et, et = OutputType.nvim ∨ et = OutputType.vim →
      formatResultDir item et =
        "<cmd>tabf +" ++ toString (item.cursorStart.row + 1) ++ " " ++
          item.filePath ++ "<CR>" ∧
      formatResultBuf item et =
        "<cmd>call FlfJumpToBufWithLine(\"" ++ item.filePath ++ "\",\"" ++
          toString (item.cursorStart.row + 1) ++ "\")<CR>" ∧
      showResultString item et = formatResultDir item et ∧
      (toString (item.cursorStart.row + 1)).data <:+: (formatResultDir item et).data ∧
      item.filePath.data <:+: (formatResultDir item et).data ∧
      (toString (item.cursorStart.row + 1)).data <:+: (formatResultBuf item et).data ∧
      item.filePath.data <:+: (formatResultBuf item et).data ∧
      ('\n' ∉ item.filePath.data → '\n' ∉ (formatResultDir item et).data)) ∧
    (∀ et, et = OutputType.emacs ∨ et = OutputType.cmd →
      formatResultDir item et = jsonStringifyListItem item ∧
      formatResultBuf item et = jsonStringifyListItem item ∧
      showResultString item et = jsonStringifyListItem item) := by
  constructor
  · intro et het
    have hdir : formatResultDir item et =
        "<cmd>tabf +" ++ toString (item.cursorStart.row + 1) ++ " " ++
          item.filePath ++ "<CR>" := by
      rcases het with h | h <;> subst h <;> simp [formatResultDir]
    have hbuf : formatResultBuf item et =
        "<cmd>call FlfJumpToBufWithLine(\"" ++ item.filePath ++ "\",\"" ++
          toString (item.cursorStart.row + 1) ++ "\")<CR>" := by
      rcases het with h | h <;> subst h <;> simp [formatResultBuf]
    have hshow : showResultString item et = formatResultDir item et := by
      rcases het with h | h <;> subst h <;> simp [showResultString, formatResultDir]
    refine ⟨hdir, hbuf, hshow, ?_, ?_, ?_, ?_, ?_⟩
    · rw [hdir]
      have := data_infix_middle "<cmd>tabf +" (toString (item.cursorStart.row + 1))
        (" " ++ item.filePath ++ "<CR>")
      simpa [String.append_assoc] using this
    · rw [hdir]
      have := data_infix_middle ("<cmd>tabf +" ++ toString (item.cursorStart.row + 1) ++ " ")
        item.filePath "<CR>"
      simpa [String.append_assoc] using this
    · rw [hbuf]
      have := data_infix_middle ("<cmd>call FlfJumpToBufWithLine(\"" ++ item.filePath ++ "\",\"")
        (toString (item.cursorStart.row + 1)) "\")<CR>"
      simpa [String.append_assoc] using this
    · rw [hbuf]
      have := data_infix_middle "<cmd>call FlfJumpToBufWithLine(\""
        item.filePath ("\",\"" ++ toString (item.cursorStart.row + 1) ++ "\")<CR>")
      simpa [String.append_assoc] using this
    · intro hnl
      rw [hdir]
      simp only [String.data_append, List.mem_append]
      intro hmem
      rcases hmem with (((hA | hnum) | hsp) | hpath) | hcr
      · revert hA; decide
      · exact absurd hnum (by
          intro hx
          have := repr_chars_isDigit (item.cursorStart.row + 1) '\n' hx
          simp [Char.isDigit] at this)
      · revert hsp; decide
      · exact hnl hpath
      · revert hcr; decide
  · intro et het
    rcases het with h | h <;> subst h <;>
      simp [formatResultDir, formatResultBuf, showResultString]

theorem c5_editor_command_format_witness :
    (OutputType.nvim = OutputType.nvim ∨ OutputType.nvim = OutputType.vim) ∧
    formatResultDir sampleItem OutputType.nvim =
      "<cmd>tabf +" ++ toString (sampleItem.cursorStart.row + 1) ++ " " ++
        sampleItem.filePath ++ "<CR>" :=
  ⟨Or.inl rfl,
    ((c5_editor_command_format sampleItem).1 OutputType.nvim (Or.inl rfl)).1⟩

/-- C6: for every search call, the search output has one element per
database row, and the element at position `i` (0-based) carries rank
`i + 1` — so ranks are 1-based and ascending in list order — and its score
is the backend distance formatted with exactly four decimal digits. -/
theorem c6_rank_and_score (rows : List DBRow) (flag : Bool) (i : Nat)
    (h : i < rows.length) :
    (searchMap flag rows).length = rows.length ∧
    ∃ r, (searchMap flag rows)[i]? = some r ∧ r.rank = i + 1 ∧
      r.score = toFixed4 (rows.get ⟨i, h⟩).distance := by
  refine ⟨searchMapAux_length flag rows 0, ?_⟩
  have hg := searchMapAux_getElem? flag rows 0 i
  rw [List.getElem?_eq_getElem h] at hg
  refine ⟨mkSearchResult flag i (rows.get ⟨i, h⟩), ?_, rfl, rfl⟩
  simpa [List.get_eq_getElem] using hg

theorem c6_rank_and_score_witness :
    0 < ([sampleRow] : List DBRow).length ∧
    ((searchMap true [sampleRow]).length = ([sampleRow] : List DBRow).length ∧
      ∃ r, (searchMap true [sampleRow])[0]? = some r ∧ r.rank = 0 + 1 ∧
        r.score = toFixed4 (([sampleRow] : List DBRow).get ⟨0, by decide⟩).distance) :=
  ⟨by decide, c6_rank_and_score [sampleRow] true 0 (by decide)⟩

/-- C7: the console trusts the backend rank order.  Sorting the search
output by ascending rank is the identity on it (ranks are `1, 2, ...` in
list order), so the item sequence displayed after admitting a response —
which the console obtains by sorting the response by rank — equals the
sequence returned by the backend. -/
theorem c7_trusts_backend_order (rows : List DBRow) (flag : Bool) (s : UIState) :
    ((searchMap flag rows).mergeSort fun a b => a.rank ≤ b.rank) = searchMap flag rows ∧
    (admitResponse s (searchMap flag rows)).currentResult =
      (searchMap flag rows).map searchResultToListItem := by
  refine ⟨searchMap_mergeSort_eq flag rows, ?_⟩
  unfold admitResponse
  rw [searchMap_mergeSort_eq flag rows, updateList_currentResult]

/-- C8: a clean cancel emits nothing.  The quit handler (escape / q /
Ctrl-C) destroys the screen and tears down the terminal without writing to
standard output, and since it never calls `process.exit` with a nonzero
code the process exit code is the default `0`; the Ctrl-C branch of the
keypress handler likewise writes nothing to standard output, whatever the
state and whatever the pending search produces. -/
theorem c8_clean_cancel :
    emitsNothing quitKeyHandlerEffects = true ∧
    processExitCode quitKeyHandlerEffects = 0 ∧
    ∀ (s : UIState) (resp : Except String (List SearchResult)),
      emitsNothing (handleQueryChange s ctrlCKey resp).2.1 = true := by
  refine ⟨by decide, by decide, ?_⟩
  intro s resp
  cases resp <;>
    simp [handleQueryChange, ctrlCKey, nameIsTruthy, afterKey, destroyTTYEffects,
      emitsNothing]

/-- C9 (amended): handlers catch nothing.  For every keypress other than
pure navigation, a failing search call makes the error escape the handler
uncaught across the event-loop boundary (there is no catch and no logged
no-op); a failing preview update on navigation escapes likewise. -/
theorem c9_search_error_uncaught (s : UIState) (key : KeyInput) (e : String)
    (hnav : isNavKey key = false) :
    (handleQueryChange s key (Except.error e)).2.2 = some e := by
  unfold handleQueryChange
  by_cases h1 : nameIsTruthy key.name
  · have h2 : ¬ key.name.getD "" = "up" ∧ ¬ key.name.getD "" = "down" := by
      unfold isNavKey at hnav
      rw [h1] at hnav
      simpa using hnav
    simp only [h1, if_true]
    split_ifs with hb he hu hd hch hcc
    · simp [afterKey]
    · cases s.currentResult[s.list.selected]? <;> simp [afterKey]
    · exact absurd hu h2.1
    · exact absurd hd h2.2
    · simp [afterKey]
    · simp [afterKey]
    · simp [afterKey]
  · simp only [Bool.not_eq_true] at h1
    simp [h1, afterKey]

theorem c9_search_error_uncaught_witness :
    (isNavKey charAKey = false) ∧
    (handleQueryChange sampleState charAKey (Except.error "db closed")).2.2 =
      some "db closed" :=
  ⟨by decide, c9_search_error_uncaught sampleState charAKey "db closed" (by decide)⟩

/-- C9 counterexample: a printable-character keypress whose search call
fails leaves the handler with an uncaught error — it neither completes
normally, nor logs a no-op, nor transitions to a terminating state. -/
theorem c9_error_escapes :
    (handleQueryChange sampleEmptyState charAKey (Except.error "search failed")).2.2 =
      some "search failed" := by
  decide

/-- C10: for every search call, the element at position `i` of the output
has, when `isJsonOutput` is false, a content snippet equal to the first
100 characters of the stored chunk content followed by the literal
`...` — the suffix is appended even when the content is shorter than 100
characters — and, when the flag is true, the full stored content. -/
theorem c10_snippet_format (rows : List DBRow) (i : Nat) (h : i < rows.length) :
    ∃ rj rt, (searchMap true rows)[i]? = some rj ∧
      (searchMap false rows)[i]? = some rt ∧
      rj.contentSnippet = (rows.get ⟨i, h⟩).content ∧
      rt.contentSnippet = jsSubstringTo (rows.get ⟨i, h⟩).content 100 ++ "..." ∧
      ((rows.get ⟨i, h⟩).content.data.length ≤ 100 →
        rt.contentSnippet = (rows.get ⟨i, h⟩).content ++ "...") := by
  have hg1 := searchMapAux_getElem? true rows 0 i
  have hg2 := searchMapAux_getElem? false rows 0 i
  rw [List.getElem?_eq_getElem h] at hg1 hg2
  refine ⟨mkSearchResult true i (rows.get ⟨i, h⟩),
    mkSearchResult false i (rows.get ⟨i, h⟩),
    by simpa [List.get_eq_getElem] using hg1,
    by simpa [List.get_eq_getElem] using hg2, rfl, rfl, ?_⟩
  intro hlen
  show jsSubstringTo (rows.get ⟨i, h⟩).content 100 ++ "..." = _
  unfold jsSubstringTo
  rw [List.take_of_length_le hlen]

theorem c10_snippet_format_witness :
    0 < ([sampleRow] : List DBRow).length ∧
    ∃ rj rt, (searchMap true [sampleRow])[0]? = some rj ∧
      (searchMap false [sampleRow])[0]? = some rt ∧
      rj.contentSnippet = (([sampleRow] : List DBRow).get ⟨0, by decide⟩).content ∧
      rt.contentSnippet =
        jsSubstringTo (([sampleRow] : List DBRow).get ⟨0, by decide⟩).content 100 ++ "..." ∧
      ((([sampleRow] : List DBRow).get ⟨0, by decide⟩).content.data.length ≤ 100 →
        rt.contentSnippet = (([sampleRow] : List DBRow).get ⟨0, by decide⟩).content ++ "...") :=
  ⟨by decide, c10_snippet_format [sampleRow] 0 (by decide)⟩
